import Mathlib

/-!
Shallow embedding of the alternative-frontend payment client.

The embedding translates the TypeScript sources of the repository:
the `Payment` record and statuses from `types/payment.ts`, the
`WalletService` (wallet connection, NETWORK_MAP, localStorage
persistence), the `PaymentService` (`getRecentPayments`), and the
`AppComponent` payment-submission flow (`submitPayment`,
`updatePaymentStatus`, `convertToWei`, `loadRecentPayments`, and the
status-polling interval started by `startPaymentStatusPolling`).

Modelling conventions, fixed once here:
* Browser-provider calls (`provider.request`), HTTP calls and their
  possible rejections are passed in explicitly as an environment of
  `Except`/`Option` results, one slot per external call site.
* JS numbers that the code feeds through `parseFloat`/`toString` are
  carried as exact rationals (`ℚ`); IEEE-754 double rounding is not
  reimplemented.  `Math.floor` is exact flooring.
* `Date.now()` and `new Date().toISOString()` are inputs (`now`,
  `nowIso`); JS string falsiness is modelled with `Option String`
  (`none` = absent/undefined) where the code tests truthiness.
* The execution order of asynchronous steps is the sequential order in
  which the code awaits them; the observable step order is recorded in
  an explicit event trace.
-/

namespace AltFrontend

/-- Payment status union `'pending' | 'confirmed' | 'failed' | 'cancelled'`
from `src/app/types/payment.ts`. -/
inductive Status where
  | pending
  | confirmed
  | failed
  | cancelled
deriving DecidableEq, Repr

/-- The `Payment` interface of `src/app/types/payment.ts`.  Optional
TypeScript fields become `Option`s. -/
structure Payment where
  id : String
  amount : String
  currency : String
  status : Status
  to_address : String
  from_address : Option String := none
  transaction_hash : Option String := none
  createdAt : String
  confirmed_at : Option String := none
  description : Option String := none
deriving DecidableEq, Repr

/-- A JS error value as the code inspects it: an optional numeric `code`
(MetaMask uses 4001 for user rejection) and an optional `message`. -/
structure JsError where
  code : Option Nat := none
  message : Option String := none
deriving DecidableEq, Repr

/-- Value of a hexadecimal digit, both cases, exactly the digits accepted
by JS `BigInt('0x' + s)`. -/
def hexVal (c : Char) : Option Nat :=
  if c = '0' then some 0
  else if c = '1' then some 1
  else if c = '2' then some 2
  else if c = '3' then some 3
  else if c = '4' then some 4
  else if c = '5' then some 5
  else if c = '6' then some 6
  else if c = '7' then some 7
  else if c = '8' then some 8
  else if c = '9' then some 9
  else if c = 'a' ∨ c = 'A' then some 10
  else if c = 'b' ∨ c = 'B' then some 11
  else if c = 'c' ∨ c = 'C' then some 12
  else if c = 'd' ∨ c = 'D' then some 13
  else if c = 'e' ∨ c = 'E' then some 14
  else if c = 'f' ∨ c = 'F' then some 15
  else none

/-- Lowercase hex digit character, as produced by JS
`BigInt.prototype.toString(16)`. -/
def hexDigitChar (n : Nat) : Char :=
  if n = 0 then '0'
  else if n = 1 then '1'
  else if n = 2 then '2'
  else if n = 3 then '3'
  else if n = 4 then '4'
  else if n = 5 then '5'
  else if n = 6 then '6'
  else if n = 7 then '7'
  else if n = 8 then '8'
  else if n = 9 then '9'
  else if n = 10 then 'a'
  else if n = 11 then 'b'
  else if n = 12 then 'c'
  else if n = 13 then 'd'
  else if n = 14 then 'e'
  else 'f'

/-- Fuel-driven hex printing of a natural number, most significant digit
first.  The fuel only bounds the digit count; `natToHex` supplies enough. -/
def natToHexAux : Nat → Nat → List Char
  | 0, _ => []
  | fuel + 1, n =>
    if n < 16 then [hexDigitChar n]
    else natToHexAux fuel (n / 16) ++ [hexDigitChar (n % 16)]

/-- Hex digits of `n`, as JS `n.toString(16)` produces for a nonnegative
BigInt. -/
def natToHex (n : Nat) : List Char := natToHexAux (n + 1) n

/-- One step of left-to-right hex parsing; `none` is sticky (an invalid
digit makes JS `BigInt` throw). -/
def hexAccum (acc : Option Nat) (c : Char) : Option Nat :=
  match acc with
  | none => none
  | some v => (hexVal c).map fun d => v * 16 + d

/-- Parse a hex digit string as JS `BigInt('0x' + s)` does: the empty
string and any invalid digit yield `none` (JS throws a `SyntaxError`). -/
def parseHexDigits (cs : List Char) : Option Nat :=
  match cs with
  | [] => none
  | _ => cs.foldl hexAccum (some 0)

/-- Value of a decimal digit. -/
def decVal (c : Char) : Option Nat :=
  if c = '0' then some 0
  else if c = '1' then some 1
  else if c = '2' then some 2
  else if c = '3' then some 3
  else if c = '4' then some 4
  else if c = '5' then some 5
  else if c = '6' then some 6
  else if c = '7' then some 7
  else if c = '8' then some 8
  else if c = '9' then some 9
  else none

/-- One step of left-to-right decimal parsing; `none` is sticky. -/
def decAccum (acc : Option Nat) (c : Char) : Option Nat :=
  match acc with
  | none => none
  | some v => (decVal c).map fun d => v * 10 + d

/-- JS `BigInt(s)` on a string that carries no `0x`/`0o`/`0b` prefix (the
call site passes hex digit strings already stripped of their `0x`, and
the hex alphabet cannot re-form a prefix): an optional sign followed by
DECIMAL digits; a bare sign or any non-decimal character throws
(`none`); the empty string is 0 (JS `BigInt('')` is `0n`). -/
def jsBigIntDec (cs : List Char) : Option Int :=
  match cs with
  | [] => some 0
  | '-' :: [] => none
  | '-' :: ds => (ds.foldl decAccum (some 0)).map fun n => -(n : Int)
  | '+' :: [] => none
  | '+' :: ds => (ds.foldl decAccum (some 0)).map fun n => (n : Int)
  | ds => (ds.foldl decAccum (some 0)).map fun n => (n : Int)

/-- The wei value the component computes:
`Math.floor(parseFloat(amount) * 1e18)` (`1e18` is an exactly
representable double).  Computed as the flooring integer division of
`amount.num * 10^18` by `amount.den`, which equals
`⌊amount * 10^18⌋` exactly (`weiInt_eq_floor` below). -/
def weiInt (amount : ℚ) : Int :=
  Int.fdiv (amount.num * 1000000000000000000) amount.den

/-- The wei amount as a natural number (the nonnegative case). -/
def weiNat (amount : ℚ) : Nat := (weiInt amount).toNat

/-- `BigInt.prototype.toString(16)`: lowercase hex digits, with a leading
minus sign for negative values. -/
def intToHexJs (i : Int) : List Char :=
  if i < 0 then '-' :: natToHex i.natAbs else natToHex i.toNat

/-- `AppComponent.convertToWei` (part_004 lines 688-699).  Both the
`currency === 'ETH'` branch and the fallback branch compute
`'0x' + BigInt(Math.floor(parseFloat(amount) * 1e18)).toString(16)`;
the amount string is carried as the rational number `parseFloat` yields. -/
def convertToWei (amount : ℚ) (currency : String) : String :=
  if currency = "ETH" then String.mk ('0' :: 'x' :: intToHexJs (weiInt amount))
  else String.mk ('0' :: 'x' :: intToHexJs (weiInt amount))

namespace WalletService

/-- JS `String.prototype.toLowerCase`, character-wise (the chain ids the
code lowercases are ASCII). -/
def jsToLower (s : String) : String := String.mk (s.data.map Char.toLower)

/-- The `NETWORK_MAP` constant of the wallet service (part_001). -/
def NETWORK_MAP (chainId : String) : Option String :=
  if chainId = "0x1" then some "Ethereum Mainnet"
  else if chainId = "0x5" then some "Goerli Testnet"
  else if chainId = "0xaa36a7" then some "Sepolia Testnet"
  else if chainId = "0x89" then some "Polygon Mainnet"
  else if chainId = "0x13881" then some "Polygon Mumbai"
  else if chainId = "0xa4b1" then some "Arbitrum One"
  else if chainId = "0xa" then some "Optimism"
  else none

/-- `WalletConnection` as returned by `WalletService.connectWallet`. -/
structure WalletConnection where
  address : String
  chainId : String
  networkName : String
deriving DecidableEq, Repr

/-- The browser environment a `connectWallet` call runs against: whether a
provider is injected, and the result of each provider request the method
awaits.  `accountsResult`'s inner `Option` models `eth_requestAccounts`
resolving to `null`/`undefined` (the `!accounts` test). -/
structure WalletEnv where
  providerPresent : Bool
  permissionsResult : Except JsError Unit
  accountsResult : Except JsError (Option (List String))
  chainIdResult : Except JsError String

/-- `localStorage`, as a list of key-value pairs (latest entry wins). -/
def LocalStorage := List (String × String)
deriving instance DecidableEq, Repr for LocalStorage

/-- `localStorage.setItem`. -/
def storeSet (store : LocalStorage) (key value : String) : LocalStorage :=
  (key, value) :: List.filter (fun kv => decide (kv.1 ≠ key)) store

/-- The key `WalletService.WALLET_ADDRESS_KEY` under which the connected
address is persisted. -/
def WALLET_ADDRESS_KEY : String := "walletAddress"

/-- The `wallet_requestPermissions` step of `connectWallet` (part_001
lines 64-76): only performed when `forceAccountSelection`; a rejection
with code 4001 is rethrown as an `Error`, any other rejection is
swallowed. -/
def permissionStep (env : WalletEnv) (forceAccountSelection : Bool) :
    Except JsError Unit :=
  if forceAccountSelection then
    match env.permissionsResult with
    | .error e =>
      if e.code = some 4001 then
        .error { message := some "Account selection was rejected. Please select an account to continue." }
      else .ok ()
    | .ok _ => .ok ()
  else .ok ()

/-- `WalletService.connectWallet` (part_001 lines 59-97), with
`ensureProvider` (lines 180-187) inlined at its call site.  Throwing is
`Except.error`; the returned store reflects `persistWalletAddress`. -/
def connectWallet (env : WalletEnv) (store : LocalStorage)
    (forceAccountSelection : Bool) :
    Except JsError (WalletConnection × LocalStorage) :=
  if env.providerPresent = false then
    .error { message := some "MetaMask was not detected. Please install or enable it in your browser." }
  else
    match permissionStep env forceAccountSelection with
    | .error e => .error e
    | .ok _ =>
      match env.accountsResult with
      | .error e => .error e
      | .ok accounts =>
        match accounts with
        | none =>
          .error { message := some "No accounts selected. Please select an account in MetaMask." }
        | some [] =>
          .error { message := some "No accounts selected. Please select an account in MetaMask." }
        | some (a :: _) =>
          match env.chainIdResult with
          | .error e => .error e
          | .ok chainId =>
            .ok ({ address := a, chainId := chainId,
                   networkName := (NETWORK_MAP (jsToLower chainId)).getD "Unknown Network" },
                 storeSet store WALLET_ADDRESS_KEY a)

end WalletService

namespace PaymentService

/-- `PaymentService.getRecentPayments` (payment.service.ts lines 18-25),
as a function of the HTTP outcome.  The argument is the observable's
source event: `.error` is an HTTP failure, `.ok none` a response whose
`payments` field is missing or null, `.ok (some ps)` a response carrying
`ps`.  The result is what the subscriber receives (`.error` would be an
error notification). -/
def getRecentPayments (response : Except Unit (Option (List Payment))) :
    Except Unit (List Payment) :=
  match response with
  | .error _ => .ok []
  | .ok none => .ok []
  | .ok (some ps) => .ok ps

end PaymentService

namespace AppComponent

/-- The externally observable steps of `submitPayment`, in execution
order.  `optimisticInsert` is the `payments.update` prepending the
pending record (line 350), `weiConversion` the `convertToWei` call (363),
`balanceCheck` the `eth_getBalance`/`eth_gasPrice` attempt (366-395),
`sendTransaction` the `eth_sendTransaction` request (400-408),
`receiptPoll i` the i-th `eth_getTransactionReceipt` request of the
in-flight loop (432-450), and `createPaymentIntent` the backend call
(480-487). -/
inductive Ev where
  | optimisticInsert
  | weiConversion
  | balanceCheck
  | sendTransaction
  | receiptPoll (attempt : Nat)
  | createPaymentIntent
deriving DecidableEq, Repr

/-- `receipt.status` as the code compares it: a hex string or a number. -/
inductive ReceiptStatus where
  | str (s : String)
  | num (n : Nat)
deriving DecidableEq, Repr

/-- A transaction receipt; only its `status` field is inspected. -/
structure Receipt where
  status : ReceiptStatus
deriving DecidableEq, Repr

/-- `receipt.status === '0x1' || receipt.status === '0x01' ||
receipt.status === 1` (part_004 lines 462 and 595). -/
def isSuccessStatus : ReceiptStatus → Bool
  | .str s => s == "0x1" || s == "0x01"
  | .num n => n == 1

/-- The environment of one `submitPayment` run: presence of
`window.ethereum` and the result of each awaited external call.
`receipts i` is what the i-th `eth_getTransactionReceipt` request
produces (`none` covering both a `null` receipt and a rejected request,
which the loop treats alike).  `backendResult` is `createPaymentIntent`'s
outcome, with `response.payment || response` already resolved to the
backend's payment record. -/
structure SubmitEnv where
  present : Bool
  balanceResult : Except Unit String
  gasPriceResult : Except Unit String
  sendTxResult : Except JsError String
  receipts : Nat → Option Receipt
  backendResult : Except Unit Payment

/-- The raw value of the payment form, as `getRawValue` returns it.  The
numeric `amount` is carried both as its exact rational value and as its
`toString` rendering `amountStr` (JS number printing is not
reimplemented; `parseFloat(amountStr)` recovers `amount`).  The unused
`phoneSearch` control is omitted. -/
structure FormValue where
  amount : ℚ
  amountStr : String
  currency : String
  recipientWallet : String
  reference : String
  memo : String

/-- The optimistic pending record built at part_004 lines 341-349. -/
def pendingPaymentOf (form : FormValue) (walletAddress : String)
    (now : Nat) (nowIso : String) : Payment :=
  { id := "pending-" ++ toString now,
    amount := form.amountStr,
    currency := if form.currency = "" then "ETH" else form.currency,
    status := .pending,
    to_address := form.recipientWallet,
    from_address := some walletAddress,
    createdAt := nowIso }

/-- `[pendingPayment, ...existing].slice(0, 10)` (line 350). -/
def insertOptimistic (p : Payment) (existing : List Payment) : List Payment :=
  (p :: existing).take 10

/-- The record update `updatePaymentStatus` applies to a matching entry
(lines 560-567): `transaction_hash: txHash || p.transaction_hash` and a
`description` override only when an error message is present and the new
status is 'failed'. -/
def applyUpdate (p : Payment) (status : Status) (errorMessage : Option String)
    (txHash : Option String) : Payment :=
  { p with
    status := status,
    transaction_hash :=
      match txHash with
      | some h => some h
      | none => p.transaction_hash,
    description :=
      match errorMessage, status with
      | some m, .failed => some m
      | _, _ => p.description }

/-- `AppComponent.updatePaymentStatus` (part_004 lines 557-570). -/
def updatePaymentStatus (payments : List Payment) (paymentId : String)
    (status : Status) (errorMessage : Option String) (txHash : Option String) :
    List Payment :=
  payments.map fun p =>
    if p.id = paymentId then applyUpdate p status errorMessage txHash else p

/-- `s.startsWith('0x') ? s.slice(2) : s` on the character list. -/
def strip0xChars : List Char → List Char
  | '0' :: 'x' :: rest => rest
  | cs => cs

/-- `BigInt('0x' + clean)` where `clean` is the argument with a leading
`'0x'` removed: `none` when the digits are empty or invalid (JS throws). -/
def parseBigIntHex (s : String) : Option Nat :=
  parseHexDigits (strip0xChars s.data)

/-- Outcome of the guarded balance check of lines 366-395. -/
inductive BalanceDecision where
  | insufficient
  | proceed
deriving DecidableEq, Repr

/-- The try/catch balance check (lines 366-395): any rejection or parse
failure inside the `try` is caught (line 392) and the flow proceeds; only
a successfully computed `balanceWei < amountInWei + 21000 * gasPrice`
stops the submission.  The `eth_getBalance` (line 374) and `eth_gasPrice`
(line 383) results are parsed as `BigInt('0x' + clean)`, i.e. as hex; the
amount (line 377) is parsed as `BigInt(clean)` WITHOUT re-prepending the
`'0x'`, so its bare hex digits are read as a decimal literal and any
digit a-f makes `BigInt` throw into the catch. -/
def balanceDecision (env : SubmitEnv) (amountInWeiHex : String) : BalanceDecision :=
  match env.balanceResult with
  | .error _ => .proceed
  | .ok balanceHex =>
    match parseBigIntHex balanceHex with
    | none => .proceed
    | some balanceWei =>
      match jsBigIntDec (strip0xChars amountInWeiHex.data) with
      | none => .proceed
      | some amountInWei =>
        match env.gasPriceResult with
        | .error _ => .proceed
        | .ok gasPriceHex =>
          match parseBigIntHex gasPriceHex with
          | none => .proceed
          | some gasPrice =>
            if (balanceWei : Int) < amountInWei + 21000 * (gasPrice : Int) then .insufficient
            else .proceed

/-- `maxAttempts` of the in-flight receipt loop (line 430). -/
def maxAttempts : Nat := 60

/-- The 5000ms wait between receipt polls (line 448). -/
def receiptPollDelayMs : Nat := 5000

/-- The `while (attempts < maxAttempts)` receipt loop (lines 432-450),
fuel-structural.  Returns the receipt found (if any) and the number of
`eth_getTransactionReceipt` requests performed. -/
def receiptLoopAux (receipts : Nat → Option Receipt) : Nat → Nat → Option Receipt × Nat
  | 0, attempts => (none, attempts)
  | fuel + 1, attempts =>
    match receipts attempts with
    | some r => (some r, attempts + 1)
    | none => receiptLoopAux receipts fuel (attempts + 1)

/-- The receipt loop run from attempt 0 with the code's `maxAttempts`. -/
def receiptLoop (receipts : Nat → Option Receipt) : Option Receipt × Nat :=
  receiptLoopAux receipts maxAttempts 0

/-- Result of a `submitPayment` run: the final payments list, the event
trace, the payment id handed to `startPaymentStatusPolling` (if any), and
— as pure instrumentation for stating properties — the status the
optimistic record has at the moment `createPaymentIntent` is issued. -/
structure SubmitResult where
  payments : List Payment
  trace : List Ev
  startedPolling : Option String
  statusAtBackendCall : Option Status
deriving Repr

/-- The backend synchronization of lines 479-548: on success the matching
local record is replaced by the backend payment with
`finalStatus = transactionConfirmed ? 'confirmed' : payment.status`, and
polling is started when that status is still pending; on error a locally
confirmed record is left untouched and anything else is reset to
'pending' (never 'failed').  The `loadRecentPayments()` refresh and the
form reset inside the success handler are outside this model's scope. -/
def backendPhase (env : SubmitEnv) (ps : List Payment) (pp : Payment)
    (txHash : String) (transactionConfirmed : Bool) (nowIso : String)
    (t : List Ev) : SubmitResult :=
  let t' := t ++ [Ev.createPaymentIntent]
  let statusAt := (ps.find? fun p => p.id == pp.id).map (fun p => p.status)
  match env.backendResult with
  | .ok payment =>
    let finalStatus := if transactionConfirmed then Status.confirmed else payment.status
    let ps' := ps.map fun p =>
      if p.id = pp.id then
        { payment with
          status := finalStatus,
          transaction_hash := some txHash,
          confirmed_at :=
            if finalStatus = Status.confirmed then some nowIso else payment.confirmed_at }
      else p
    let finalPaymentId := if payment.id = "" then pp.id else payment.id
    { payments := ps', trace := t',
      startedPolling := if finalStatus = Status.pending then some finalPaymentId else none,
      statusAtBackendCall := statusAt }
  | .error _ =>
    let ps' :=
      match ps.find? fun p => p.id == pp.id with
      | some cur =>
        if cur.status = Status.confirmed then ps
        else updatePaymentStatus ps pp.id Status.pending (some "Backend verification pending") none
      | none =>
        updatePaymentStatus ps pp.id Status.pending (some "Backend verification pending") none
    { payments := ps', trace := t', startedPolling := none, statusAtBackendCall := statusAt }

/-- Lines 427-548: wait for the receipt, settle the local status, and —
unless the chain reported a revert — synchronize with the backend. -/
def afterSend (env : SubmitEnv) (ps2 : List Payment) (pp : Payment)
    (txHash : String) (nowIso : String) (baseTrace : List Ev) : SubmitResult :=
  let lr := receiptLoop env.receipts
  let t := baseTrace ++ (List.range lr.2).map Ev.receiptPoll
  match lr.1 with
  | none =>
    backendPhase env
      (updatePaymentStatus ps2 pp.id Status.pending (some "Transaction pending confirmation") none)
      pp txHash false nowIso t
  | some r =>
    if isSuccessStatus r.status then
      backendPhase env
        (updatePaymentStatus ps2 pp.id Status.confirmed none (some txHash))
        pp txHash true nowIso t
    else
      { payments :=
          updatePaymentStatus ps2 pp.id Status.failed (some "Transaction reverted on blockchain") none,
        trace := t, startedPolling := none, statusAtBackendCall := none }

/-- `AppComponent.submitPayment` (part_004 lines 324-555).  Validation
outcome and wallet connectivity are inputs (`formValid`, `connected`);
`now`/`nowIso` stand for `Date.now()` / `new Date().toISOString()`.
Toast notifications are pure UI and not modelled.  The outer catch of
line 549 is unreachable here because every await's rejection is already
routed through the environment. -/
def submitPayment (env : SubmitEnv) (form : FormValue) (formValid connected : Bool)
    (walletAddress : String) (now : Nat) (nowIso : String)
    (payments0 : List Payment) : SubmitResult :=
  if formValid = false then
    { payments := payments0, trace := [], startedPolling := none, statusAtBackendCall := none }
  else if connected = false then
    { payments := payments0, trace := [], startedPolling := none, statusAtBackendCall := none }
  else
    let pp := pendingPaymentOf form walletAddress now nowIso
    let ps1 := insertOptimistic pp payments0
    if env.present = false then
      { payments := updatePaymentStatus ps1 pp.id Status.failed (some "MetaMask not available") none,
        trace := [Ev.optimisticInsert], startedPolling := none, statusAtBackendCall := none }
    else
      let amountInWeiHex := convertToWei form.amount form.currency
      match balanceDecision env amountInWeiHex with
      | .insufficient =>
        { payments := updatePaymentStatus ps1 pp.id Status.failed (some "Insufficient balance") none,
          trace := [Ev.optimisticInsert, Ev.weiConversion, Ev.balanceCheck],
          startedPolling := none, statusAtBackendCall := none }
      | .proceed =>
        match env.sendTxResult with
        | .error e =>
          { payments :=
              updatePaymentStatus ps1 pp.id Status.failed
                (some (if e.code = some 4001 then "Transaction rejected by user"
                       else e.message.getD "Transaction failed")) none,
            trace := [Ev.optimisticInsert, Ev.weiConversion, Ev.balanceCheck, Ev.sendTransaction],
            startedPolling := none, statusAtBackendCall := none }
        | .ok txHash =>
          afterSend env
            (updatePaymentStatus ps1 pp.id Status.pending none (some txHash))
            pp txHash nowIso
            [Ev.optimisticInsert, Ev.weiConversion, Ev.balanceCheck, Ev.sendTransaction]

/-- `maxPolls` of the status-polling interval (line 582). -/
def maxPolls : Nat := 30

/-- The 10000ms interval period (line 683). -/
def pollIntervalMs : Nat := 10000

/-- `p.id === paymentId || p.transaction_hash === txHash`
(lines 600 and 639). -/
def paymentMatches (paymentId txHash : String) (p : Payment) : Bool :=
  p.id == paymentId || p.transaction_hash == some txHash

/-- `sort((a, b) => new Date(b.createdAt).getTime() - new
Date(a.createdAt).getTime())`: a stable sort by descending `createdAt`.
`Date` parsing is not reimplemented; the model orders the `createdAt`
strings directly (they are ISO-8601 in the code, so string order is
chronological).  The claims only use that sorting permutes the list. -/
def sortByCreatedAtDesc (l : List Payment) : List Payment :=
  l.mergeSort fun a b => decide (b.createdAt ≤ a.createdAt)

/-- One interval tick's inputs: the `eth_getTransactionReceipt` outcome
(`none` for a null receipt or a rejected request, treated alike) and the
`getRecentPayments` outcome. -/
structure PollInput where
  chainReceipt : Option Receipt
  backend : Except Unit (List Payment)

/-- The state of one polling interval: the tick counter, whether the
interval is still installed, and the payments signal. -/
structure PollState where
  pollCount : Nat
  active : Bool
  payments : List Payment
deriving Repr

/-- The direct blockchain check of one interval tick (lines 588-625): a
present receipt marks matching payments confirmed or failed and clears
the interval; no receipt (or a rejected request) changes nothing.
Returns the updated payments and whether the interval is still active. -/
def applyChainReceipt (paymentId txHash nowIso : String) (rc : Option Receipt)
    (ps : List Payment) : List Payment × Bool :=
  match rc with
  | none => (ps, true)
  | some r =>
    if isSuccessStatus r.status then
      (ps.map fun p =>
        if paymentMatches paymentId txHash p then
          { p with status := Status.confirmed, confirmed_at := some nowIso }
        else p,
       false)
    else
      (ps.map fun p =>
        if paymentMatches paymentId txHash p then { p with status := Status.failed } else p,
       false)

/-- The backend refresh of one interval tick (lines 627-682).  When the
backend reports the tracked payment with a non-pending status, or after
`maxPolls` ticks, the interval is cleared.  The nested `payments.update`
inside the outer update callback is overwritten by the outer callback's
return value (`merged.sort(...).slice(0, 10)`), so the net list for a
nonempty response is the sorted, truncated backend item list. -/
def applyBackendPoll (paymentId txHash : String) (pollCount : Nat)
    (res : Except Unit (List Payment)) (ps : List Payment) (active : Bool) :
    List Payment × Bool :=
  match res with
  | .error _ => (ps, if maxPolls ≤ pollCount then false else active)
  | .ok items =>
    if items.isEmpty then (ps, if maxPolls ≤ pollCount then false else active)
    else
      let stop :=
        match items.find? (paymentMatches paymentId txHash) with
        | some bp => decide (bp.status ≠ Status.pending)
        | none => false
      let newActive :=
        if stop = true then false
        else if maxPolls ≤ pollCount then false
        else active
      ((sortByCreatedAtDesc items).take 10, newActive)

/-- One tick of the `startPaymentStatusPolling` interval (lines 584-683):
`pollCount++`, the chain receipt check, then the backend refresh.  The
two in-tick requests are issued together; the model applies the chain
callback first.  An inactive state (cleared interval) ignores ticks. -/
def pollTick (paymentId txHash nowIso : String) (st : PollState) (inp : PollInput) :
    PollState :=
  if st.active = false then st
  else
    let pc := st.pollCount + 1
    let chainRes := applyChainReceipt paymentId txHash nowIso inp.chainReceipt st.payments
    let backRes := applyBackendPoll paymentId txHash pc inp.backend chainRes.1 chainRes.2
    { pollCount := pc, active := backRes.2, payments := backRes.1 }

/-- A run of the polling interval over a sequence of tick inputs. -/
def runTicks (paymentId txHash nowIso : String) (st : PollState)
    (inputs : List PollInput) : PollState :=
  inputs.foldl (pollTick paymentId txHash nowIso) st

/-- The `existsInBackend` test of lines 721-724. -/
def existsInBackend (items : List Payment) (ep : Payment) : Bool :=
  items.any fun it =>
    it.id == ep.id || (it.transaction_hash.isSome && it.transaction_hash == ep.transaction_hash)

/-- The `next` handler of `loadRecentPayments` (lines 712-743): backend
items are merged with local pending payments not yet known to the backend
(each `unshift` prepends, so their relative order reverses), sorted by
`createdAt` descending and truncated to 10.  An empty backend response
keeps the existing list (the code's `set([])` when the list is already
empty is a no-op). -/
def loadRecentPaymentsNext (existing items : List Payment) : List Payment :=
  if items.isEmpty then existing
  else
    let locals := existing.filter fun ep =>
      !existsInBackend items ep && ep.status == Status.pending
    (sortByCreatedAtDesc (locals.reverse ++ items)).take 10

/-- The three hard-coded `demoPayments` (part_004 lines 91-117); the
`Date`-derived `createdAt` strings are inputs. -/
def demoPayments (t0 t1 t2 : String) : List Payment :=
  [ { id := "demo-1", amount := "2.4", currency := "ETH", status := .confirmed,
      to_address := "0x9F57...21B3", transaction_hash := some "0x53fe7c...",
      createdAt := t0 },
    { id := "demo-2", amount := "1800", currency := "USDC", status := .pending,
      to_address := "0xa6e0...19C1", createdAt := t1 },
    { id := "demo-3", amount := "0.84", currency := "ETH", status := .failed,
      to_address := "0x317b...4C99", createdAt := t2 } ]

/-- A receipt arriving, with success status, at the first poll. -/
def receiptAt0 : Nat → Option Receipt :=
  fun i => if i = 0 then some { status := .str "0x1" } else none

/-- A concrete backend payment record. -/
def backendPaymentA : Payment :=
  { id := "srv-1", amount := "0", currency := "USDC", status := .pending,
    to_address := "0xRecipient", createdAt := "t1" }

/-- A submission environment where every external call succeeds: zero
balance and zero gas price (so the zero amount passes the balance check),
an accepted transaction, a success receipt at the first poll, and a
successful backend call. -/
def envHappy : SubmitEnv :=
  { present := true, balanceResult := .ok "0x0", gasPriceResult := .ok "0x0",
    sendTxResult := .ok "0xabc123", receipts := receiptAt0,
    backendResult := .ok backendPaymentA }

/-- A validated form with a zero amount. -/
def formZero : FormValue :=
  { amount := 0, amountStr := "0", currency := "USDC",
    recipientWallet := "0xRecipient", reference := "", memo := "" }

/-- The rational 16/10^18: an amount worth exactly 16 wei, whose hex
rendering `0x10` is made of decimal-lookalike digits. -/
def amount16wei : ℚ := Rat.mk' 1 62500000000000000 (by norm_num) (Nat.coprime_one_left _)

/-- A validated form carrying the 16-wei amount. -/
def formSixteenWei : FormValue :=
  { amount := amount16wei, amountStr := "1.6e-17", currency := "ETH",
    recipientWallet := "0xRecipient", reference := "", memo := "" }

/-- Balance 12 wei (`0xc`) and gas price 0: strictly below the 16-wei
amount the form asks to send, yet above the decimal misreading of its hex
`0x10` as 10. -/
def envBalanceBug : SubmitEnv :=
  { present := true
    balanceResult := .ok "0xc"
    gasPriceResult := .ok "0x0"
    sendTxResult := .ok "0xabc123"
    receipts := fun _ => none
    backendResult := .error () }

/-- Like `envHappy` but no receipt ever arrives and the backend call
fails. -/
def envNoReceipt : SubmitEnv :=
  { envHappy with
    receipts := fun _ => none
    backendResult := .error () }

/-- Like `envHappy` but the backend call fails. -/
def envConfirmedBackendErr : SubmitEnv :=
  { envHappy with backendResult := .error () }

end AppComponent

/-! ## Theorems -/

theorem hexVal_hexDigitChar {d : Nat} (hd : d < 16) :
    hexVal (hexDigitChar d) = some d := by
  interval_cases d <;> rfl

theorem natToHexAux_ne_nil (fuel n : Nat) : natToHexAux (fuel + 1) n ≠ [] := by
  unfold natToHexAux
  split <;> simp

theorem foldl_hexAccum_natToHexAux (fuel : Nat) :
    ∀ n, n < 16 ^ fuel → (natToHexAux fuel n).foldl hexAccum (some 0) = some n := by
  induction fuel with
  | zero =>
    intro n hn
    have : n = 0 := by simpa using hn
    subst this
    rfl
  | succ fuel ih =>
    intro n hn
    by_cases h16 : n < 16
    · simp [natToHexAux, h16, List.foldl, hexAccum, hexVal_hexDigitChar h16]
    · have hdiv : n / 16 < 16 ^ fuel := by
        rw [Nat.div_lt_iff_lt_mul (by norm_num)]
        calc n < 16 ^ (fuel + 1) := hn
          _ = 16 ^ fuel * 16 := by ring
      have hmod : n % 16 < 16 := Nat.mod_lt _ (by norm_num)
      simp only [natToHexAux, if_neg h16, List.foldl_append]
      rw [ih (n / 16) hdiv]
      simp only [List.foldl, hexAccum, hexVal_hexDigitChar hmod, Option.map]
      have harith : n / 16 * 16 + n % 16 = n := by omega
      rw [harith]

theorem parseHexDigits_eq_foldl {cs : List Char} (h : cs ≠ []) :
    parseHexDigits cs = cs.foldl hexAccum (some 0) := by
  cases cs with
  | nil => exact absurd rfl h
  | cons c cs => rfl

theorem parseHexDigits_natToHex (n : Nat) : parseHexDigits (natToHex n) = some n := by
  have hfuel : n < 16 ^ (n + 1) := by
    calc n < 2 ^ n := Nat.lt_two_pow n
      _ ≤ 16 ^ n := Nat.pow_le_pow_left (by norm_num) n
      _ ≤ 16 ^ (n + 1) := Nat.pow_le_pow_right (by norm_num) (Nat.le_succ n)
  have hne : natToHex n ≠ [] := natToHexAux_ne_nil n n
  rw [parseHexDigits_eq_foldl hne]
  exact foldl_hexAccum_natToHexAux (n + 1) n hfuel

/-- Validation of `weiInt` against Mathlib's floor. -/
theorem weiInt_eq_floor (a : ℚ) : weiInt a = ⌊a * 1000000000000000000⌋ := by
  have ha : a = (a.num : ℚ) / (a.den : ℚ) := (Rat.num_div_den a).symm
  have h1 : a * 1000000000000000000
      = ((a.num * 1000000000000000000 : ℤ) : ℚ) / ((a.den : ℕ) : ℚ) := by
    conv_lhs => rw [ha]
    push_cast
    ring
  rw [weiInt, h1, Rat.floor_intCast_div_natCast,
    Int.fdiv_eq_ediv _ (by exact_mod_cast Nat.zero_le a.den)]

theorem weiInt_nonneg {a : ℚ} (ha : 0 ≤ a) : 0 ≤ weiInt a := by
  apply Int.fdiv_nonneg
  · exact mul_nonneg (Rat.num_nonneg.mpr ha) (by norm_num)
  · exact_mod_cast Nat.zero_le a.den

/-- C8: convertToWei ignores its currency parameter: for every amount and
every pair of currencies the results agree, and the result is the
'0x'-prefixed hexadecimal encoding of floor(amount * 10^18) -- so non-ETH
amounts such as USDC are converted exactly as if they were ETH. -/
theorem convertToWei_ignores_currency :
    (∀ (a : ℚ) (c1 c2 : String), convertToWei a c1 = convertToWei a c2) ∧
    (∀ (a : ℚ) (c : String),
      convertToWei a c = String.mk ('0' :: 'x' :: intToHexJs (weiInt a))) := by
  constructor
  · intro a c1 c2
    unfold convertToWei
    split <;> split <;> rfl
  · intro a c
    unfold convertToWei
    split <;> rfl

namespace WalletService

theorem permissionStep_ok (env : WalletEnv) (force : Bool)
    (h : force = true → ∀ e, env.permissionsResult = .error e → e.code ≠ some 4001) :
    permissionStep env force = .ok () := by
  unfold permissionStep
  cases force with
  | false => rfl
  | true =>
    simp only [if_true]
    cases hp : env.permissionsResult with
    | ok u => rfl
    | error e =>
      have hc : e.code ≠ some 4001 := h rfl e hp
      simp [hc]

/-- C7 counterexample: with an injected provider, a nonempty account list
and a resolving chain-id request, `connectWallet` still throws when the
forced account-selection permission request is rejected with code 4001, so
the claim's "otherwise it returns a connection" is false at this input. -/
theorem connectWallet_c7_counterexample :
    (WalletEnv.mk true
        (.error { code := some 4001, message := some "User rejected the request." })
        (.ok (some ["0x1111111111111111111111111111111111111111"]))
        (.ok "0x1")).providerPresent = true ∧
    (WalletEnv.mk true
        (.error { code := some 4001, message := some "User rejected the request." })
        (.ok (some ["0x1111111111111111111111111111111111111111"]))
        (.ok "0x1")).accountsResult
      = .ok (some ["0x1111111111111111111111111111111111111111"]) ∧
    connectWallet
      (WalletEnv.mk true
        (.error { code := some 4001, message := some "User rejected the request." })
        (.ok (some ["0x1111111111111111111111111111111111111111"]))
        (.ok "0x1"))
      [] true
      = .error { message := some "Account selection was rejected. Please select an account to continue." } :=
  ⟨rfl, rfl, rfl⟩

/-- C7 (amended): connectWallet throws when no browser-injected provider
is present, when the forced account-selection permission request is
rejected with code 4001, when eth_requestAccounts rejects or returns an
empty or missing account list, or when eth_chainId rejects; otherwise it
returns a connection whose address is the first returned account and
whose networkName is the NETWORK_MAP entry for the lowercased chain id
('Unknown Network' when unmapped), and it persists that address under the
localStorage key 'walletAddress'. -/
theorem connectWallet_spec :
    (∀ env store force, env.providerPresent = false →
      connectWallet env store force
        = .error { message := some "MetaMask was not detected. Please install or enable it in your browser." }) ∧
    (∀ env store force, env.providerPresent = true →
      (force = true → ∀ e, env.permissionsResult = .error e → e.code ≠ some 4001) →
      (env.accountsResult = .ok none ∨ env.accountsResult = .ok (some [])) →
      connectWallet env store force
        = .error { message := some "No accounts selected. Please select an account in MetaMask." }) ∧
    (∀ env store force a rest cid, env.providerPresent = true →
      (force = true → ∀ e, env.permissionsResult = .error e → e.code ≠ some 4001) →
      env.accountsResult = .ok (some (a :: rest)) →
      env.chainIdResult = .ok cid →
      connectWallet env store force
        = .ok ({ address := a, chainId := cid,
                 networkName := (NETWORK_MAP (jsToLower cid)).getD "Unknown Network" },
               storeSet store WALLET_ADDRESS_KEY a)) := by
  refine ⟨fun env store force hp => ?_, fun env store force hp hperm hacc => ?_,
    fun env store force a rest cid hp hperm hacc hcid => ?_⟩
  · simp [connectWallet, hp]
  · cases hacc with
    | inl h => simp [connectWallet, hp, permissionStep_ok env force hperm, h]
    | inr h => simp [connectWallet, hp, permissionStep_ok env force hperm, h]
  · simp [connectWallet, hp, permissionStep_ok env force hperm, hacc, hcid]

/-- C7 witness: the amended theorem applied at a concrete environment. -/
theorem connectWallet_spec_witness :
    connectWallet
      (WalletEnv.mk true (.ok ())
        (.ok (some ["0x2222222222222222222222222222222222222222"])) (.ok "0X1"))
      [] true
      = .ok ({ address := "0x2222222222222222222222222222222222222222",
               chainId := "0X1", networkName := "Ethereum Mainnet" },
             [(WALLET_ADDRESS_KEY, "0x2222222222222222222222222222222222222222")]) := by
  have h := connectWallet_spec.2.2
      (WalletEnv.mk true (.ok ())
        (.ok (some ["0x2222222222222222222222222222222222222222"])) (.ok "0X1"))
      [] true "0x2222222222222222222222222222222222222222" [] "0X1"
      rfl (fun _ e he => by cases he) rfl rfl
  exact h.trans rfl

end WalletService

namespace PaymentService

/-- C9: getRecentPayments never yields an error to its subscriber: every
HTTP failure yields the empty list, a response whose payments field is
missing or null yields the empty list, and otherwise it yields exactly the
payments array of the response. -/
theorem getRecentPayments_never_errors :
    (∀ r, ∃ l, getRecentPayments r = .ok l) ∧
    getRecentPayments (.error ()) = .ok [] ∧
    getRecentPayments (.ok none) = .ok [] ∧
    (∀ ps, getRecentPayments (.ok (some ps)) = .ok ps) := by
  refine ⟨fun r => ?_, rfl, rfl, fun ps => rfl⟩
  cases r with
  | error e => exact ⟨[], rfl⟩
  | ok o =>
    cases o with
    | none => exact ⟨[], rfl⟩
    | some ps => exact ⟨ps, rfl⟩

end PaymentService

namespace AppComponent

theorem applyUpdate_id (p : Payment) (st : Status) (em th : Option String) :
    (applyUpdate p st em th).id = p.id := rfl

theorem applyUpdate_status (p : Payment) (st : Status) (em th : Option String) :
    (applyUpdate p st em th).status = st := rfl

theorem insertOptimistic_eq (p : Payment) (l : List Payment) :
    insertOptimistic p l = p :: l.take 9 := by
  simp [insertOptimistic]

theorem updatePaymentStatus_cons (p : Payment) (l : List Payment) (pid : String)
    (st : Status) (em th : Option String) :
    updatePaymentStatus (p :: l) pid st em th
      = (if p.id = pid then applyUpdate p st em th else p) :: updatePaymentStatus l pid st em th := by
  simp [updatePaymentStatus]

theorem parseBigIntHex_convertToWei (a : ℚ) (c : String) (ha : 0 ≤ a) :
    parseBigIntHex (convertToWei a c) = some (weiNat a) := by
  have hnn : 0 ≤ weiInt a := weiInt_nonneg ha
  have hhex : intToHexJs (weiInt a) = natToHex (weiInt a).toNat := by
    unfold intToHexJs
    rw [if_neg (by omega)]
  unfold convertToWei parseBigIntHex weiNat
  split <;> simp [hhex, strip0xChars, parseHexDigits_natToHex]

theorem receiptLoopAux_polls_le (rcs : Nat → Option Receipt) (fuel : Nat) :
    ∀ a, (receiptLoopAux rcs fuel a).2 ≤ a + fuel := by
  induction fuel with
  | zero => intro a; simp [receiptLoopAux]
  | succ fuel ih =>
    intro a
    rw [receiptLoopAux]
    cases h : rcs a with
    | some r => simp
    | none =>
      have := ih (a + 1)
      simp
      omega

theorem receiptLoop_polls_le (rcs : Nat → Option Receipt) :
    (receiptLoop rcs).2 ≤ maxAttempts := by
  have := receiptLoopAux_polls_le rcs maxAttempts 0
  simpa [receiptLoop] using this

theorem backendPhase_trace (env : SubmitEnv) (ps : List Payment) (pp : Payment)
    (tx : String) (tc : Bool) (iso : String) (t : List Ev) :
    (backendPhase env ps pp tx tc iso t).trace = t ++ [Ev.createPaymentIntent] := by
  cases hb : env.backendResult <;> simp [backendPhase, hb]

theorem backendPhase_cons_head (env : SubmitEnv) (q : Payment) (rest : List Payment)
    (pp : Payment) (tx : String) (tc : Bool) (iso : String) (t : List Ev)
    (hid : q.id = pp.id) :
    (backendPhase env (q :: rest) pp tx tc iso t).statusAtBackendCall = some q.status ∧
    (tc = true → q.status = Status.confirmed →
      ((backendPhase env (q :: rest) pp tx tc iso t).payments.head?).map (fun p => p.status)
        = some Status.confirmed) ∧
    (env.backendResult = .error () → q.status ≠ Status.confirmed →
      (backendPhase env (q :: rest) pp tx tc iso t).payments.head?
        = some (applyUpdate q Status.pending (some "Backend verification pending") none)) := by
  have hbeq : (q.id == pp.id) = true := by simp [hid]
  have hfind : ((q :: rest).find? fun p => p.id == pp.id) = some q := by
    simp [List.find?, hbeq]
  cases hb : env.backendResult with
  | ok payment =>
    refine ⟨?_, ?_, ?_⟩
    · simp [backendPhase, hb, hfind]
    · intro htc _
      subst htc
      simp [backendPhase, hb, hid]
    · intro hbe
      exact absurd hbe (by simp)
  | error u =>
    refine ⟨?_, ?_, ?_⟩
    · simp [backendPhase, hb, hfind]
    · intro _ hqs
      simp [backendPhase, hb, hfind, hqs]
    · intro _ hqs
      simp [backendPhase, hb, hfind, hqs, updatePaymentStatus_cons, hid]

theorem afterSend_cases (env : SubmitEnv) (q : Payment) (rest : List Payment)
    (pp : Payment) (tx iso : String) (bt : List Ev) (hid : q.id = pp.id)
    (hbt : Ev.createPaymentIntent ∉ bt) :
    ((receiptLoop env.receipts).1 = none →
      (afterSend env (q :: rest) pp tx iso bt).trace
        = bt ++ (List.range (receiptLoop env.receipts).2).map Ev.receiptPoll
            ++ [Ev.createPaymentIntent] ∧
      (afterSend env (q :: rest) pp tx iso bt).statusAtBackendCall = some Status.pending ∧
      (env.backendResult = .error () →
        ((afterSend env (q :: rest) pp tx iso bt).payments.head?).map (fun p => p.status)
          = some Status.pending)) ∧
    (∀ rc, (receiptLoop env.receipts).1 = some rc → isSuccessStatus rc.status = true →
      (afterSend env (q :: rest) pp tx iso bt).trace
        = bt ++ (List.range (receiptLoop env.receipts).2).map Ev.receiptPoll
            ++ [Ev.createPaymentIntent] ∧
      ((afterSend env (q :: rest) pp tx iso bt).payments.head?).map (fun p => p.status)
        = some Status.confirmed) ∧
    (∀ rc, (receiptLoop env.receipts).1 = some rc → isSuccessStatus rc.status = false →
      ((afterSend env (q :: rest) pp tx iso bt).payments.head?).map (fun p => p.status)
        = some Status.failed ∧
      Ev.createPaymentIntent ∉ (afterSend env (q :: rest) pp tx iso bt).trace) := by
  refine ⟨fun hnone => ?_, fun rc hrc hs => ?_, fun rc hrc hs => ?_⟩
  · have hup : updatePaymentStatus (q :: rest) pp.id Status.pending
        (some "Transaction pending confirmation") none
        = applyUpdate q Status.pending (some "Transaction pending confirmation") none
            :: updatePaymentStatus rest pp.id Status.pending
                 (some "Transaction pending confirmation") none := by
      rw [updatePaymentStatus_cons, if_pos hid]
    have hmain := backendPhase_cons_head env
      (applyUpdate q Status.pending (some "Transaction pending confirmation") none)
      (updatePaymentStatus rest pp.id Status.pending (some "Transaction pending confirmation") none)
      pp tx false iso
      (bt ++ (List.range (receiptLoop env.receipts).2).map Ev.receiptPoll)
      (by rw [applyUpdate_id]; exact hid)
    refine ⟨?_, ?_, ?_⟩
    · simp only [afterSend, hnone]
      exact backendPhase_trace ..
    · simp only [afterSend, hnone, hup]
      exact hmain.1
    · intro hbe
      simp only [afterSend, hnone, hup]
      have h3 := hmain.2.2 hbe (by simp [applyUpdate_status])
      rw [h3]
      simp [applyUpdate_status]
  · have hup : updatePaymentStatus (q :: rest) pp.id Status.confirmed none (some tx)
        = applyUpdate q Status.confirmed none (some tx)
            :: updatePaymentStatus rest pp.id Status.confirmed none (some tx) := by
      rw [updatePaymentStatus_cons, if_pos hid]
    have hmain := backendPhase_cons_head env
      (applyUpdate q Status.confirmed none (some tx))
      (updatePaymentStatus rest pp.id Status.confirmed none (some tx))
      pp tx true iso
      (bt ++ (List.range (receiptLoop env.receipts).2).map Ev.receiptPoll)
      (by rw [applyUpdate_id]; exact hid)
    refine ⟨?_, ?_⟩
    · simp only [afterSend, hrc, hs, if_true]
      exact backendPhase_trace ..
    · simp only [afterSend, hrc, hs, if_true, hup]
      exact hmain.2.1 rfl (applyUpdate_status ..)
  · have hup : updatePaymentStatus (q :: rest) pp.id Status.failed
        (some "Transaction reverted on blockchain") none
        = applyUpdate q Status.failed (some "Transaction reverted on blockchain") none
            :: updatePaymentStatus rest pp.id Status.failed
                 (some "Transaction reverted on blockchain") none := by
      rw [updatePaymentStatus_cons, if_pos hid]
    refine ⟨?_, ?_⟩
    · simp only [afterSend, hrc, hs, if_false, hup]
      simp [applyUpdate_status]
    · simp only [afterSend, hrc, hs, if_false]
      intro hmem
      rcases List.mem_append.mp hmem with h | h
      · exact hbt h
      · rcases List.mem_map.mp h with ⟨i, _, hi⟩
        cases hi

theorem submitPayment_proceed_eq (env : SubmitEnv) (form : FormValue)
    (wa : String) (now : Nat) (nowIso : String) (ps0 : List Payment) (txh : String)
    (hp : env.present = true)
    (hdec : balanceDecision env (convertToWei form.amount form.currency) = .proceed)
    (hsend : env.sendTxResult = .ok txh) :
    submitPayment env form true true wa now nowIso ps0
      = afterSend env
          (applyUpdate (pendingPaymentOf form wa now nowIso) Status.pending none (some txh)
            :: updatePaymentStatus (ps0.take 9) (pendingPaymentOf form wa now nowIso).id
                 Status.pending none (some txh))
          (pendingPaymentOf form wa now nowIso) txh nowIso
          [Ev.optimisticInsert, Ev.weiConversion, Ev.balanceCheck, Ev.sendTransaction] := by
  have hup : updatePaymentStatus
      (pendingPaymentOf form wa now nowIso :: ps0.take 9)
      (pendingPaymentOf form wa now nowIso).id Status.pending none (some txh)
      = applyUpdate (pendingPaymentOf form wa now nowIso) Status.pending none (some txh)
          :: updatePaymentStatus (ps0.take 9) (pendingPaymentOf form wa now nowIso).id
               Status.pending none (some txh) := by
    rw [updatePaymentStatus_cons, if_pos rfl]
  simp only [submitPayment, hp, hdec, hsend, insertOptimistic_eq, hup]
  simp

theorem afterSend_trace_head (env : SubmitEnv) (ps2 : List Payment) (pp : Payment)
    (tx iso : String) (e : Ev) (bt : List Ev) :
    (afterSend env ps2 pp tx iso (e :: bt)).trace.head? = some e := by
  cases hlr : (receiptLoop env.receipts).1 with
  | none =>
    simp only [afterSend, hlr]
    rw [backendPhase_trace]
    simp
  | some r =>
    cases hs : isSuccessStatus r.status with
    | true =>
      simp only [afterSend, hlr, hs, if_true]
      rw [backendPhase_trace]
      simp
    | false =>
      simp [afterSend, hlr, hs]

theorem mem_afterSend_trace {e : Ev} (env : SubmitEnv) (ps2 : List Payment)
    (pp : Payment) (tx iso : String) (bt : List Ev) (he : e ∈ bt) :
    e ∈ (afterSend env ps2 pp tx iso bt).trace := by
  cases hlr : (receiptLoop env.receipts).1 with
  | none =>
    simp only [afterSend, hlr]
    rw [backendPhase_trace]
    exact List.mem_append_left _ (List.mem_append_left _ he)
  | some r =>
    cases hs : isSuccessStatus r.status with
    | true =>
      simp only [afterSend, hlr, hs, if_true]
      rw [backendPhase_trace]
      exact List.mem_append_left _ (List.mem_append_left _ he)
    | false =>
      simp only [afterSend, hlr, hs]
      exact List.mem_append_left _ he

/-- C1 counterexample: at a concrete environment where every step
succeeds, the trace of submitPayment places the wei conversion strictly
before the balance check, so the claimed step order (balance check first,
then wei conversion) is false. -/
theorem submitPayment_claimed_step_order_false :
    (submitPayment envHappy formZero true true "0xWallet" 7 "t0" []).trace
      = [Ev.optimisticInsert, Ev.weiConversion, Ev.balanceCheck, Ev.sendTransaction,
         Ev.receiptPoll 0, Ev.createPaymentIntent] ∧
    ¬ List.indexOf Ev.balanceCheck
          (submitPayment envHappy formZero true true "0xWallet" 7 "t0" []).trace
        < List.indexOf Ev.weiConversion
            (submitPayment envHappy formZero true true "0xWallet" 7 "t0" []).trace := by
  decide

/-- C1 (amended): for every payment submission that passes form validation
and the wallet-connected check, with the provider present, submitPayment
performs the wei conversion BEFORE the balance check; when no step cuts
the flow short (the balance check does not report an insufficient
balance, the transaction is accepted, and the receipt either reports
success or never arrives within the 60 attempts) the steps occur in this
order: wei conversion, balance check, transaction submission via
eth_sendTransaction, polling via eth_getTransactionReceipt, and backend
synchronization via createPaymentIntent. -/
theorem submitPayment_step_order (env : SubmitEnv) (form : FormValue)
    (wa : String) (now : Nat) (nowIso : String) (ps0 : List Payment) (txh : String)
    (hp : env.present = true)
    (hdec : balanceDecision env (convertToWei form.amount form.currency) = .proceed)
    (hsend : env.sendTxResult = .ok txh)
    (hrc : ∀ rc, (receiptLoop env.receipts).1 = some rc → isSuccessStatus rc.status = true) :
    (submitPayment env form true true wa now nowIso ps0).trace
      = [Ev.optimisticInsert, Ev.weiConversion, Ev.balanceCheck, Ev.sendTransaction]
        ++ (List.range (receiptLoop env.receipts).2).map Ev.receiptPoll
        ++ [Ev.createPaymentIntent] := by
  rw [submitPayment_proceed_eq env form wa now nowIso ps0 txh hp hdec hsend]
  have hcases := afterSend_cases env
    (applyUpdate (pendingPaymentOf form wa now nowIso) Status.pending none (some txh))
    (updatePaymentStatus (ps0.take 9) (pendingPaymentOf form wa now nowIso).id
      Status.pending none (some txh))
    (pendingPaymentOf form wa now nowIso) txh nowIso
    [Ev.optimisticInsert, Ev.weiConversion, Ev.balanceCheck, Ev.sendTransaction]
    (applyUpdate_id ..) (by decide)
  cases hlr : (receiptLoop env.receipts).1 with
  | none => exact (hcases.1 hlr).1
  | some rc => exact (hcases.2.1 rc hlr (hrc rc hlr)).1

/-- C1 witness: the amended order theorem at a concrete environment. -/
theorem submitPayment_step_order_witness :
    (submitPayment envHappy formZero true true "0xWallet" 7 "t0" []).trace
      = [Ev.optimisticInsert, Ev.weiConversion, Ev.balanceCheck, Ev.sendTransaction,
         Ev.receiptPoll 0, Ev.createPaymentIntent] := by
  have h := submitPayment_step_order envHappy formZero "0xWallet" 7 "t0" [] "0xabc123"
    rfl (by decide) rfl
    (fun rc hrc => by
      have hx : (receiptLoop envHappy.receipts).1 = some { status := .str "0x1" } := by decide
      rw [hx] at hrc
      cases hrc
      decide)
  exact h.trans (by decide)

/-- C2 (code bug exhibit): the insufficient-balance guard the claim
describes is broken by part_004 line 377, which strips the `0x` prefix
from the amount hex and passes the BARE digits to `BigInt` — unlike the
balance (line 374) and gas price (line 383) parses, which re-prepend
`'0x'`.  At an amount of exactly 16 wei (hex `0x10`), balance 12 wei and
gas price 0, the balance check completes without throwing and
12 < 16 + 21000 * 0 holds, yet `BigInt('10')` yields decimal 10, the
comparison 12 < 10 fails, and eth_sendTransaction is still called; at
1 ETH, `BigInt('de0b6b3a7640000')` throws outright and the catch
proceeds to eth_sendTransaction.  The line-376 comment, the `'0x' +` on
the two neighbouring parses and the insufficient-balance handling show
the claim matches the intent and line 377 is the slip. -/
theorem submitPayment_balance_guard_code_bug :
    convertToWei amount16wei "ETH" = "0x10" ∧
    parseBigIntHex "0x10" = some 16 ∧
    jsBigIntDec (strip0xChars ("0x10".data)) = some 10 ∧
    (12 : Nat) < 16 + 21000 * 0 ∧
    balanceDecision envBalanceBug (convertToWei amount16wei "ETH")
      = BalanceDecision.proceed ∧
    Ev.sendTransaction
      ∈ (submitPayment envBalanceBug formSixteenWei true true "0xWallet" 7 "t0" []).trace ∧
    jsBigIntDec (strip0xChars ((convertToWei 1 "ETH").data)) = none := by
  decide

/-- C3: after the transaction is submitted the client polls
eth_getTransactionReceipt at most 60 times; a receipt with success status
makes the local payment 'confirmed', a receipt with any other status
makes it 'failed' and skips backend synchronization, and if no receipt
arrives within the 60 attempts the payment is still 'pending' at the
moment backend synchronization — which still proceeds — is issued. -/
theorem submitPayment_receipt_outcomes (env : SubmitEnv) (form : FormValue)
    (wa : String) (now : Nat) (nowIso : String) (ps0 : List Payment) (txh : String)
    (hp : env.present = true)
    (hdec : balanceDecision env (convertToWei form.amount form.currency) = .proceed)
    (hsend : env.sendTxResult = .ok txh) :
    (receiptLoop env.receipts).2 ≤ 60 ∧
    (∀ rc, (receiptLoop env.receipts).1 = some rc → isSuccessStatus rc.status = true →
      ((submitPayment env form true true wa now nowIso ps0).payments.head?).map
          (fun p => p.status)
        = some Status.confirmed) ∧
    (∀ rc, (receiptLoop env.receipts).1 = some rc → isSuccessStatus rc.status = false →
      ((submitPayment env form true true wa now nowIso ps0).payments.head?).map
          (fun p => p.status)
        = some Status.failed ∧
      Ev.createPaymentIntent ∉ (submitPayment env form true true wa now nowIso ps0).trace) ∧
    ((receiptLoop env.receipts).1 = none →
      Ev.createPaymentIntent ∈ (submitPayment env form true true wa now nowIso ps0).trace ∧
      (submitPayment env form true true wa now nowIso ps0).statusAtBackendCall
        = some Status.pending) := by
  rw [submitPayment_proceed_eq env form wa now nowIso ps0 txh hp hdec hsend]
  have hcases := afterSend_cases env
    (applyUpdate (pendingPaymentOf form wa now nowIso) Status.pending none (some txh))
    (updatePaymentStatus (ps0.take 9) (pendingPaymentOf form wa now nowIso).id
      Status.pending none (some txh))
    (pendingPaymentOf form wa now nowIso) txh nowIso
    [Ev.optimisticInsert, Ev.weiConversion, Ev.balanceCheck, Ev.sendTransaction]
    (applyUpdate_id ..) (by decide)
  refine ⟨receiptLoop_polls_le env.receipts, ?_, ?_, ?_⟩
  · intro rc hlr hs
    exact (hcases.2.1 rc hlr hs).2
  · intro rc hlr hs
    exact hcases.2.2 rc hlr hs
  · intro hlr
    have h1 := hcases.1 hlr
    refine ⟨?_, h1.2.1⟩
    rw [h1.1]
    simp

/-- C3 witness: the theorem at a concrete environment whose first receipt
poll returns a success receipt. -/
theorem submitPayment_receipt_outcomes_witness :
    (receiptLoop envHappy.receipts).2 ≤ 60 ∧
    ((submitPayment envHappy formZero true true "0xWallet" 7 "t0" []).payments.head?).map
        (fun p => p.status)
      = some Status.confirmed := by
  have h := submitPayment_receipt_outcomes envHappy formZero "0xWallet" 7 "t0" [] "0xabc123"
    rfl (by decide) rfl
  exact ⟨h.1, h.2.1 { status := .str "0x1" } (by decide) (by decide)⟩

/-- C4: backend synchronization never rolls the local payment back on
error: if the on-chain receipt reported success and the subsequent
createPaymentIntent call fails, the local payment keeps status
'confirmed'; if the transaction was not yet confirmed (no receipt within
the polling window) and the backend call fails, the local payment is set
to 'pending', never to 'failed'. -/
theorem submitPayment_no_backend_rollback (env : SubmitEnv) (form : FormValue)
    (wa : String) (now : Nat) (nowIso : String) (ps0 : List Payment) (txh : String)
    (hp : env.present = true)
    (hdec : balanceDecision env (convertToWei form.amount form.currency) = .proceed)
    (hsend : env.sendTxResult = .ok txh)
    (hbe : env.backendResult = .error ()) :
    (∀ rc, (receiptLoop env.receipts).1 = some rc → isSuccessStatus rc.status = true →
      ((submitPayment env form true true wa now nowIso ps0).payments.head?).map
          (fun p => p.status)
        = some Status.confirmed) ∧
    ((receiptLoop env.receipts).1 = none →
      ((submitPayment env form true true wa now nowIso ps0).payments.head?).map
          (fun p => p.status)
        = some Status.pending) := by
  rw [submitPayment_proceed_eq env form wa now nowIso ps0 txh hp hdec hsend]
  have hcases := afterSend_cases env
    (applyUpdate (pendingPaymentOf form wa now nowIso) Status.pending none (some txh))
    (updatePaymentStatus (ps0.take 9) (pendingPaymentOf form wa now nowIso).id
      Status.pending none (some txh))
    (pendingPaymentOf form wa now nowIso) txh nowIso
    [Ev.optimisticInsert, Ev.weiConversion, Ev.balanceCheck, Ev.sendTransaction]
    (applyUpdate_id ..) (by decide)
  refine ⟨?_, ?_⟩
  · intro rc hlr hs
    exact (hcases.2.1 rc hlr hs).2
  · intro hlr
    exact (hcases.1 hlr).2.2 hbe

/-- C4 witness: the theorem at a concrete environment with a success
receipt at the first poll and a failing backend. -/
theorem submitPayment_no_backend_rollback_witness :
    ((submitPayment envConfirmedBackendErr formZero true true "0xWallet" 7 "t0" []).payments.head?).map
        (fun p => p.status)
      = some Status.confirmed := by
  have h := submitPayment_no_backend_rollback envConfirmedBackendErr formZero
    "0xWallet" 7 "t0" [] "0xabc123" rfl (by decide) rfl rfl
  exact h.1 { status := .str "0x1" } (by decide) (by decide)

/-- C5: for every payment submission that passes form validation and the
wallet-connected check, an optimistic local record with status 'pending',
a locally generated id, and the form's amount, currency and recipient
address is prepended to the payments list before any provider call
(balance check or transaction submission). -/
theorem submitPayment_optimistic_insert (env : SubmitEnv) (form : FormValue)
    (wa : String) (now : Nat) (nowIso : String) (ps0 : List Payment)
    (hcur : form.currency ≠ "") :
    (submitPayment env form true true wa now nowIso ps0).trace.head?
      = some Ev.optimisticInsert ∧
    (∀ i e, (submitPayment env form true true wa now nowIso ps0).trace.get? i = some e →
      (e = Ev.balanceCheck ∨ e = Ev.sendTransaction) → 0 < i) ∧
    insertOptimistic (pendingPaymentOf form wa now nowIso) ps0
      = pendingPaymentOf form wa now nowIso :: ps0.take 9 ∧
    (pendingPaymentOf form wa now nowIso).status = Status.pending ∧
    (pendingPaymentOf form wa now nowIso).id = "pending-" ++ toString now ∧
    (pendingPaymentOf form wa now nowIso).amount = form.amountStr ∧
    (pendingPaymentOf form wa now nowIso).currency = form.currency ∧
    (pendingPaymentOf form wa now nowIso).to_address = form.recipientWallet := by
  have hhead : (submitPayment env form true true wa now nowIso ps0).trace.head?
      = some Ev.optimisticInsert := by
    cases hp : env.present with
    | false => simp [submitPayment, hp]
    | true =>
      cases hdec : balanceDecision env (convertToWei form.amount form.currency) with
      | insufficient => simp [submitPayment, hp, hdec]
      | proceed =>
        cases hs : env.sendTxResult with
        | error e => simp [submitPayment, hp, hdec, hs]
        | ok txh =>
          rw [submitPayment_proceed_eq env form wa now nowIso ps0 txh hp hdec hs]
          exact afterSend_trace_head ..
  refine ⟨hhead, ?_, insertOptimistic_eq .., rfl, rfl, rfl, ?_, rfl⟩
  · intro i e hget hor
    cases i with
    | zero =>
      have h0 : ∀ (l : List Ev), l.get? 0 = l.head? := fun l => by cases l <;> rfl
      rw [h0, hhead] at hget
      have he := Option.some.inj hget
      rcases hor with h | h <;> rw [← he] at h <;> exact absurd h (by decide)
    | succ n => exact Nat.succ_pos n
  · simp [pendingPaymentOf, hcur]

/-- C5 witness: the theorem at a concrete environment and form. -/
theorem submitPayment_optimistic_insert_witness :
    (submitPayment envHappy formZero true true "0xWallet" 7 "t0" []).trace.head?
      = some Ev.optimisticInsert ∧
    (pendingPaymentOf formZero "0xWallet" 7 "t0").status = Status.pending ∧
    (pendingPaymentOf formZero "0xWallet" 7 "t0").currency = formZero.currency := by
  have h := submitPayment_optimistic_insert envHappy formZero "0xWallet" 7 "t0" []
    (by decide)
  exact ⟨h.1, h.2.2.2.1, h.2.2.2.2.2.2.1⟩

theorem pollTick_inactive (pid tx iso : String) (st : PollState) (inp : PollInput)
    (h : st.active = false) : pollTick pid tx iso st inp = st := by
  simp [pollTick, h]

theorem applyChainReceipt_length (pid tx iso : String) (rc : Option Receipt)
    (ps : List Payment) : (applyChainReceipt pid tx iso rc ps).1.length = ps.length := by
  cases rc with
  | none => rfl
  | some r =>
    cases hs : isSuccessStatus r.status <;> simp [applyChainReceipt, hs]

theorem applyBackendPoll_length (pid tx : String) (pc : Nat)
    (res : Except Unit (List Payment)) (ps : List Payment) (act : Bool)
    (hps : ps.length ≤ 10) :
    (applyBackendPoll pid tx pc res ps act).1.length ≤ 10 := by
  cases res with
  | error u => simpa [applyBackendPoll] using hps
  | ok items =>
    cases he : items.isEmpty with
    | true => simpa [applyBackendPoll, he] using hps
    | false =>
      simp [applyBackendPoll, he, sortByCreatedAtDesc, List.length_take]

theorem applyBackendPoll_false (pid tx : String) (pc : Nat)
    (res : Except Unit (List Payment)) (ps : List Payment) :
    (applyBackendPoll pid tx pc res ps false).2 = false := by
  cases res with
  | error u => simp [applyBackendPoll]
  | ok items =>
    cases he : items.isEmpty with
    | true => simp [applyBackendPoll, he]
    | false =>
      simp only [applyBackendPoll, he]
      split <;> simp

theorem applyBackendPoll_clears_at_max (pid tx : String) (pc : Nat)
    (res : Except Unit (List Payment)) (ps : List Payment) (act : Bool)
    (hc : maxPolls ≤ pc) :
    (applyBackendPoll pid tx pc res ps act).2 = false := by
  cases res with
  | error u => simp [applyBackendPoll, hc]
  | ok items =>
    cases he : items.isEmpty with
    | true => simp [applyBackendPoll, he, hc]
    | false =>
      simp only [applyBackendPoll, he]
      split <;> simp [hc]

theorem pollTick_payments_length (pid tx iso : String) (st : PollState) (inp : PollInput)
    (h : st.payments.length ≤ 10) :
    (pollTick pid tx iso st inp).payments.length ≤ 10 := by
  cases ha : st.active with
  | false => rw [pollTick_inactive _ _ _ _ _ ha]; exact h
  | true =>
    simp only [pollTick, ha]
    simp only [Bool.true_eq_false, if_false]
    exact applyBackendPoll_length _ _ _ _ _ _ (by rw [applyChainReceipt_length]; exact h)

theorem pollTick_increments (pid tx iso : String) (st : PollState) (inp : PollInput)
    (ha : st.active = true) :
    (pollTick pid tx iso st inp).pollCount = st.pollCount + 1 := by
  simp [pollTick, ha]

theorem pollTick_clears_at_max (pid tx iso : String) (st : PollState) (inp : PollInput)
    (ha : st.active = true) (hc : maxPolls ≤ st.pollCount + 1) :
    (pollTick pid tx iso st inp).active = false := by
  simp only [pollTick, ha]
  simp only [Bool.true_eq_false, if_false]
  exact applyBackendPoll_clears_at_max _ _ _ _ _ _ hc

theorem pollTick_active_of_active (pid tx iso : String) (st : PollState) (inp : PollInput)
    (h : (pollTick pid tx iso st inp).active = true) : st.active = true := by
  cases ha : st.active with
  | true => rfl
  | false =>
    rw [pollTick_inactive _ _ _ _ _ ha] at h
    rw [ha] at h
    cases h

theorem pollTick_active_lt_max (pid tx iso : String) (st : PollState) (inp : PollInput)
    (h : (pollTick pid tx iso st inp).active = true) : st.pollCount + 1 < maxPolls := by
  have ha := pollTick_active_of_active pid tx iso st inp h
  by_contra hlt
  have hc : maxPolls ≤ st.pollCount + 1 := by omega
  rw [pollTick_clears_at_max pid tx iso st inp ha hc] at h
  cases h

theorem runTicks_inactive (pid tx iso : String) (inputs : List PollInput) :
    ∀ st : PollState, st.active = false → runTicks pid tx iso st inputs = st := by
  induction inputs with
  | nil => intro st h; rfl
  | cons i rest ih =>
    intro st h
    show runTicks pid tx iso (pollTick pid tx iso st i) rest = st
    rw [pollTick_inactive _ _ _ _ _ h]
    exact ih st h

theorem runTicks_clears (pid tx iso : String) (inputs : List PollInput) :
    ∀ st : PollState, st.active = true → st.pollCount < maxPolls →
      maxPolls ≤ st.pollCount + inputs.length →
      (runTicks pid tx iso st inputs).active = false := by
  induction inputs with
  | nil =>
    intro st ha hlt hle
    exact absurd hle (by simpa using hlt)
  | cons i rest ih =>
    intro st ha hlt hle
    show (runTicks pid tx iso (pollTick pid tx iso st i) rest).active = false
    cases hact : (pollTick pid tx iso st i).active with
    | false =>
      rw [runTicks_inactive pid tx iso rest _ hact]
      exact hact
    | true =>
      have hlt2 := pollTick_active_lt_max pid tx iso st i hact
      have hpc := pollTick_increments pid tx iso st i ha
      apply ih
      · exact hact
      · rw [hpc]; exact hlt2
      · rw [hpc]
        simp only [List.length_cons] at hle
        omega

theorem pollTick_chain_clears (pid tx iso : String) (st : PollState) (inp : PollInput)
    (rc : Receipt) (ha : st.active = true) (hrc : inp.chainReceipt = some rc) :
    (pollTick pid tx iso st inp).active = false := by
  have hch : (applyChainReceipt pid tx iso inp.chainReceipt st.payments).2 = false := by
    rw [hrc]
    cases hs : isSuccessStatus rc.status <;> simp [applyChainReceipt, hs]
  simp only [pollTick, ha]
  simp only [Bool.true_eq_false, if_false]
  rw [hch]
  exact applyBackendPoll_false _ _ _ _ _

theorem pollTick_backend_clears (pid tx iso : String) (st : PollState) (inp : PollInput)
    (items : List Payment) (bp : Payment) (ha : st.active = true)
    (hb : inp.backend = .ok items)
    (hf : items.find? (paymentMatches pid tx) = some bp)
    (hbp : bp.status ≠ Status.pending) :
    (pollTick pid tx iso st inp).active = false := by
  have hne : items.isEmpty = false := by
    cases items with
    | nil => simp [List.find?] at hf
    | cons a l => rfl
  simp only [pollTick, ha]
  simp only [Bool.true_eq_false, if_false]
  rw [hb]
  simp [applyBackendPoll, hne, hf, hbp]

/-- C6: both confirmation-retry loops are bounded: the in-flight receipt
loop in submitPayment performs at most 60 attempts with 5-second waits,
and the backend status polling runs on a 10-second interval that is
cleared after at most 30 polls, or earlier as soon as the chain reports a
receipt for the transaction or the backend reports a non-pending status
for the tracked payment. -/
theorem polling_bounded :
    maxAttempts = 60 ∧ receiptPollDelayMs = 5000 ∧
    (∀ rcs, (receiptLoop rcs).2 ≤ maxAttempts) ∧
    pollIntervalMs = 10000 ∧ maxPolls = 30 ∧
    (∀ pid tx iso ps inputs, maxPolls ≤ inputs.length →
      (runTicks pid tx iso { pollCount := 0, active := true, payments := ps } inputs).active
        = false) ∧
    (∀ pid tx iso st inp rc, st.active = true → inp.chainReceipt = some rc →
      (pollTick pid tx iso st inp).active = false) ∧
    (∀ pid tx iso st inp items bp, st.active = true → inp.backend = .ok items →
      items.find? (paymentMatches pid tx) = some bp → bp.status ≠ Status.pending →
      (pollTick pid tx iso st inp).active = false) := by
  refine ⟨rfl, rfl, receiptLoop_polls_le, rfl, rfl, ?_, ?_, ?_⟩
  · intro pid tx iso ps inputs hlen
    exact runTicks_clears pid tx iso inputs _ rfl (by norm_num [maxPolls]) (by simpa using hlen)
  · intro pid tx iso st inp rc ha hrc
    exact pollTick_chain_clears pid tx iso st inp rc ha hrc
  · intro pid tx iso st inp items bp ha hb hf hbp
    exact pollTick_backend_clears pid tx iso st inp items bp ha hb hf hbp

/-- C6 witness: the bounds at concrete runs — 30 fruitless ticks clear
the interval, and a single tick that sees a chain receipt clears it
immediately. -/
theorem polling_bounded_witness :
    (runTicks "p1" "0xabc123" "t0" { pollCount := 0, active := true, payments := [] }
        (List.replicate 30 { chainReceipt := none, backend := .error () })).active = false ∧
    (pollTick "p1" "0xabc123" "t0" { pollCount := 0, active := true, payments := [] }
        { chainReceipt := some { status := .str "0x1" }, backend := .error () }).active
      = false := by
  constructor
  · exact polling_bounded.2.2.2.2.2.1 "p1" "0xabc123" "t0" []
      (List.replicate 30 { chainReceipt := none, backend := .error () }) (by decide)
  · exact polling_bounded.2.2.2.2.2.2.1 "p1" "0xabc123" "t0"
      { pollCount := 0, active := true, payments := [] }
      { chainReceipt := some { status := .str "0x1" }, backend := .error () }
      { status := .str "0x1" } rfl rfl

theorem length_updatePaymentStatus (l : List Payment) (pid : String) (st : Status)
    (em th : Option String) : (updatePaymentStatus l pid st em th).length = l.length := by
  simp [updatePaymentStatus]

theorem length_backendPhase (env : SubmitEnv) (ps : List Payment) (pp : Payment)
    (tx : String) (tc : Bool) (iso : String) (t : List Ev) :
    (backendPhase env ps pp tx tc iso t).payments.length = ps.length := by
  cases hb : env.backendResult with
  | ok payment => simp [backendPhase, hb]
  | error u =>
    simp only [backendPhase, hb]
    cases hf : ps.find? fun p => p.id == pp.id with
    | some cur =>
      by_cases hc : cur.status = Status.confirmed <;>
        simp [hf, hc, length_updatePaymentStatus]
    | none => simp [hf, length_updatePaymentStatus]

theorem length_afterSend (env : SubmitEnv) (ps2 : List Payment) (pp : Payment)
    (tx iso : String) (bt : List Ev) :
    (afterSend env ps2 pp tx iso bt).payments.length = ps2.length := by
  cases hlr : (receiptLoop env.receipts).1 with
  | none =>
    simp only [afterSend, hlr]
    rw [length_backendPhase, length_updatePaymentStatus]
  | some r =>
    cases hs : isSuccessStatus r.status with
    | true =>
      simp only [afterSend, hlr, hs, if_true]
      rw [length_backendPhase, length_updatePaymentStatus]
    | false =>
      simp only [afterSend, hlr, hs, Bool.false_eq_true, if_false]
      exact length_updatePaymentStatus ..

/-- C10: the payments list never holds more than 10 entries: demo
initialization, the optimistic insert in submitPayment, the backend
merges (in loadRecentPayments and during status polling), the per-entry
status updates, and a whole submitPayment run each leave a list of at
most 10 entries. -/
theorem payments_length_invariant :
    (∀ t0 t1 t2, (demoPayments t0 t1 t2).length ≤ 10) ∧
    (∀ p l, (insertOptimistic p l).length ≤ 10) ∧
    (∀ existing items, existing.length ≤ 10 →
      (loadRecentPaymentsNext existing items).length ≤ 10) ∧
    (∀ pid tx iso st inp, List.length (PollState.payments st) ≤ 10 →
      (pollTick pid tx iso st inp).payments.length ≤ 10) ∧
    (∀ l pid s em th, List.length l ≤ 10 → (updatePaymentStatus l pid s em th).length ≤ 10) ∧
    (∀ env form fv cn wa now iso ps0, List.length ps0 ≤ 10 →
      (submitPayment env form fv cn wa now iso ps0).payments.length ≤ 10) := by
  refine ⟨?_, ?_, ?_, ?_, ?_, ?_⟩
  · intro t0 t1 t2
    simp [demoPayments]
  · intro p l
    simp only [insertOptimistic]
    simp [List.length_take]
  · intro existing items h
    cases he : items.isEmpty with
    | true => simpa [loadRecentPaymentsNext, he] using h
    | false => simp [loadRecentPaymentsNext, he, List.length_take]
  · intro pid tx iso st inp h
    exact pollTick_payments_length pid tx iso st inp h
  · intro l pid s em th h
    rw [length_updatePaymentStatus]
    exact h
  · intro env form fv cn wa now iso ps0 h
    cases fv with
    | false => simpa [submitPayment] using h
    | true =>
      cases cn with
      | false => simpa [submitPayment] using h
      | true =>
        cases hp : env.present with
        | false =>
          simp [submitPayment, hp, length_updatePaymentStatus, insertOptimistic_eq,
            List.length_take]
        | true =>
          cases hdec : balanceDecision env (convertToWei form.amount form.currency) with
          | insufficient =>
            simp [submitPayment, hp, hdec, length_updatePaymentStatus, insertOptimistic_eq,
              List.length_take]
          | proceed =>
            cases hsend : env.sendTxResult with
            | error e =>
              simp [submitPayment, hp, hdec, hsend, length_updatePaymentStatus,
                insertOptimistic_eq, List.length_take]
            | ok txh =>
              rw [submitPayment_proceed_eq env form wa now iso ps0 txh hp hdec hsend,
                length_afterSend]
              simp [length_updatePaymentStatus, List.length_take]

/-- C10 witness: a full submitPayment run starting from the three demo
payments stays within 10 entries. -/
theorem payments_length_invariant_witness :
    (submitPayment envHappy formZero true true "0xWallet" 7 "t0"
        (demoPayments "a" "b" "c")).payments.length ≤ 10 :=
  payments_length_invariant.2.2.2.2.2 envHappy formZero true true "0xWallet" 7 "t0"
    (demoPayments "a" "b" "c") (by decide)

end AppComponent

end AltFrontend
